import Mathlib

/-!
Shallow embedding of the educational-platform backend: the OTP lifecycle
(`otpService.ts`, `authService.ts`) and the progress-aggregation engine
(`courseService.ts` progress functions, `profileService.ts` stats and
achievements).  Ids and timestamps are naturals, percentages and scores follow
the source's numeric types (scores are validated integers), and the relational
store is a list of rows per table, with Prisma's `upsert` modelled as
update-in-place-or-append and `findUnique`/`findFirst` as `List.find?`.
-/

deriving instance DecidableEq for Except

namespace Backend

/-- OTP purposes, from `otpService.ts` (`type OtpPurpose`). -/
inductive OtpPurpose where
  | REGISTER
  | LOGIN
  | PASSWORD_RESET
deriving DecidableEq

/-- A `User` row: unique email, password hash, activation flag. -/
structure User where
  id : Nat
  email : String
  passwordHash : String
  isActive : Bool
deriving DecidableEq

/-- An `OtpCode` row, as created by `createOtpForUser`. -/
structure OtpCode where
  id : Nat
  userId : Nat
  purpose : OtpPurpose
  code : String
  expiresAt : Nat
  usedAt : Option Nat
  sentTo : String
  createdAt : Nat
deriving DecidableEq

/-- A `Course` row (the fields the core logic reads). -/
structure Course where
  id : Nat
  isActive : Bool
deriving DecidableEq

/-- A `Lesson` row (the fields the core logic reads). -/
structure Lesson where
  id : Nat
  courseId : Nat
  isActive : Bool
deriving DecidableEq

/-- An `Assignment` row.  `lessonId` is optional because `submitAssignment`
guards on `assignment.lesson` before completing the owning lesson. -/
structure Assignment where
  id : Nat
  lessonId : Option Nat
  maxScore : Int
  isActive : Bool
deriving DecidableEq

/-- A `UserLessonProgress` row, upserted by `updateLessonProgress`. -/
structure UserLessonProgress where
  userId : Nat
  lessonId : Nat
  progressPercent : Nat
  completedAt : Option Nat
deriving DecidableEq

/-- A `UserCourseProgress` row, upserted by `updateCourseProgress`. -/
structure UserCourseProgress where
  userId : Nat
  courseId : Nat
  progressPercent : Nat
  completedAt : Option Nat
deriving DecidableEq

/-- A `UserAssignment` row, upserted by `submitAssignment`.  The opaque
`answers` JSON payload is modelled by an opaque token. -/
structure UserAssignment where
  userId : Nat
  assignmentId : Nat
  score : Int
  answers : Nat
  completedAt : Option Nat
deriving DecidableEq

/-- The course-content side of the store (written only by admin CRUD, read by
the core logic). -/
structure Catalog where
  courses : List Course
  lessons : List Lesson
  assignments : List Assignment
deriving DecidableEq

/-- The mutable progress tables. -/
structure Db where
  userLessonProgress : List UserLessonProgress
  userCourseProgress : List UserCourseProgress
  userAssignment : List UserAssignment
deriving DecidableEq

/-- JavaScript `Math.round (a / b)` on the exact nonnegative rational `a / b`
(for `b > 0`): half-up rounding, `floor (a / b + 1 / 2)`. -/
def jsRound (a b : Nat) : Nat := (2 * a + b) / (2 * b)

/-- Prisma `userLessonProgress.upsert` from `updateLessonProgress`: the
`create` branch sets `completedAt` to `now` or `null`; the `update` branch
passes `undefined` when not completed, leaving the stored value unchanged. -/
def upsertLessonProgress (rows : List UserLessonProgress) (userId lessonId : Nat)
    (progressPercent : Nat) (isCompleted : Bool) (now : Nat) : List UserLessonProgress :=
  if rows.any (fun r => r.userId == userId && r.lessonId == lessonId) then
    rows.map (fun r =>
      if r.userId == userId && r.lessonId == lessonId then
        { r with progressPercent := progressPercent,
                 completedAt := if isCompleted then some now else r.completedAt }
      else r)
  else
    rows ++ [{ userId := userId, lessonId := lessonId,
               progressPercent := progressPercent,
               completedAt := if isCompleted then some now else none }]

/-- Prisma `userCourseProgress.upsert` from `updateCourseProgress`. -/
def upsertCourseProgress (rows : List UserCourseProgress) (userId courseId : Nat)
    (progressPercent : Nat) (isCompleted : Bool) (now : Nat) : List UserCourseProgress :=
  if rows.any (fun r => r.userId == userId && r.courseId == courseId) then
    rows.map (fun r =>
      if r.userId == userId && r.courseId == courseId then
        { r with progressPercent := progressPercent,
                 completedAt := if isCompleted then some now else r.completedAt }
      else r)
  else
    rows ++ [{ userId := userId, courseId := courseId,
               progressPercent := progressPercent,
               completedAt := if isCompleted then some now else none }]

/-- Prisma `userAssignment.upsert` from `submitAssignment`: both branches set
`score`, `answers` and `completedAt = now`. -/
def upsertUserAssignment (rows : List UserAssignment) (userId assignmentId : Nat)
    (score : Int) (answers : Nat) (now : Nat) : List UserAssignment :=
  if rows.any (fun r => r.userId == userId && r.assignmentId == assignmentId) then
    rows.map (fun r =>
      if r.userId == userId && r.assignmentId == assignmentId then
        { r with score := score, answers := answers, completedAt := some now }
      else r)
  else
    rows ++ [{ userId := userId, assignmentId := assignmentId,
               score := score, answers := answers, completedAt := some now }]

/-- The course's active lessons, as loaded by `updateCourseProgress`. -/
def activeLessonsOf (cat : Catalog) (courseId : Nat) : List Lesson :=
  cat.lessons.filter (fun l => l.courseId == courseId && l.isActive)

/-- `updateCourseProgress` from `courseService.ts`: recomputes the user's
course progress as the rounded mean of the lesson progress rows over all of
the course's active lessons (missing rows contribute nothing to the sum but
stay in the denominator).  Errors are thrown after zero writes, so the state
component is returned unchanged on error. -/
def updateCourseProgress (cat : Catalog) (now userId courseId : Nat) (db : Db) :
    Db × Except String Unit :=
  match cat.courses.find? (fun c => c.id == courseId) with
  | none => (db, .error "Course not found")
  | some _ =>
    let activeLessons := activeLessonsOf cat courseId
    if activeLessons.length == 0 then (db, .ok ())
    else
      let lessonsProgress := db.userLessonProgress.filter
        (fun r => r.userId == userId && (activeLessons.map (fun l => l.id)).contains r.lessonId)
      let totalProgress := lessonsProgress.foldl (fun sum lp => sum + lp.progressPercent) 0
      let averageProgress := jsRound totalProgress activeLessons.length
      let isCompleted := averageProgress == 100
      let newRows := upsertCourseProgress db.userCourseProgress userId courseId
        averageProgress isCompleted now
      ({ db with userCourseProgress := newRows }, .ok ())

/-- `updateLessonProgress` from `courseService.ts`: validates the percentage,
looks up the lesson, upserts the lesson-progress row and recomputes the parent
course's aggregate.  A failure inside the course recomputation happens after
the lesson upsert was committed, which the threading of the state reflects. -/
def updateLessonProgress (cat : Catalog) (now userId lessonId : Nat)
    (progressPercent : Int) (db : Db) : Db × Except String Unit :=
  if progressPercent < 0 ∨ progressPercent > 100 then
    (db, .error "Progress percent must be between 0 and 100")
  else
    match cat.lessons.find? (fun l => l.id == lessonId) with
    | none => (db, .error "Lesson not found")
    | some lesson =>
      let isCompleted := progressPercent == 100
      let newRows := upsertLessonProgress db.userLessonProgress userId lessonId
        progressPercent.toNat isCompleted now
      let db1 := { db with userLessonProgress := newRows }
      updateCourseProgress cat now userId lesson.courseId db1

/-- `submitAssignment` from `courseService.ts`: validates the score against
the assignment's `maxScore`, upserts the `UserAssignment` row, then forces the
owning lesson's progress to 100. -/
def submitAssignment (cat : Catalog) (now userId assignmentId : Nat)
    (answers : Nat) (score : Int) (db : Db) : Db × Except String Unit :=
  match cat.assignments.find? (fun a => a.id == assignmentId) with
  | none => (db, .error "Assignment not found")
  | some assignment =>
    if score < 0 ∨ score > assignment.maxScore then
      (db, .error ("Score must be between 0 and " ++ toString assignment.maxScore))
    else
      let newRows := upsertUserAssignment db.userAssignment userId assignmentId
        score answers now
      let db1 := { db with userAssignment := newRows }
      match assignment.lessonId with
      | some lid => updateLessonProgress cat now userId lid 100 db1
      | none => (db1, .ok ())

/-- `findUnique` on the composite key of `UserLessonProgress`. -/
def findLessonProgress (db : Db) (userId lessonId : Nat) : Option UserLessonProgress :=
  db.userLessonProgress.find? (fun r => r.userId == userId && r.lessonId == lessonId)

/-- `findUnique` on the composite key of `UserCourseProgress`. -/
def findCourseProgress (db : Db) (userId courseId : Nat) : Option UserCourseProgress :=
  db.userCourseProgress.find? (fun r => r.userId == userId && r.courseId == courseId)

/-- `findUnique` on the composite key of `UserAssignment`. -/
def findUserAssignment (db : Db) (userId assignmentId : Nat) : Option UserAssignment :=
  db.userAssignment.find? (fun r => r.userId == userId && r.assignmentId == assignmentId)

/-- The user's stored progress on a lesson, an unstarted lesson counting 0. -/
def lessonPercentOrZero (rows : List UserLessonProgress) (userId lessonId : Nat) : Nat :=
  match rows.find? (fun r => r.userId == userId && r.lessonId == lessonId) with
  | some r => r.progressPercent
  | none => 0

/-- `OTP_EXP_MINUTES` with its default from `env.ts`. -/
def OTP_EXP_MINUTES : Nat := 10

/-- `createOtpForUser` from `otpService.ts`: the generated random code and the
fresh row id are passed in explicitly; `expiresAt = now + OTP_EXP_MINUTES`. -/
def createOtpForUser (otps : List OtpCode) (newId now userId : Nat)
    (purpose : OtpPurpose) (sentTo code : String) : List OtpCode × OtpCode :=
  let otp : OtpCode :=
    { id := newId, userId := userId, purpose := purpose, code := code,
      expiresAt := now + OTP_EXP_MINUTES, usedAt := none,
      sentTo := sentTo, createdAt := now }
  (otps ++ [otp], otp)

/-- One step of the `orderBy createdAt desc` selection: keep whichever record
was created later (ties keep the earlier row, the store's enumeration order
being unspecified for equal keys). -/
def latestStep (acc : Option OtpCode) (o : OtpCode) : Option OtpCode :=
  match acc with
  | none => some o
  | some b => if o.createdAt > b.createdAt then some o else some b

/-- `findFirst` with `orderBy createdAt desc`: the matching record with the
greatest `createdAt`. -/
def latestByCreatedAt (l : List OtpCode) : Option OtpCode :=
  l.foldl latestStep none

/-- `verifyOtp` from `otpService.ts`: selects the most recently created unused
matching code; fails if none or if `isBefore(expiresAt, now)`; on success
marks the selected record used. -/
def verifyOtp (now userId : Nat) (purpose : OtpPurpose) (code : String)
    (otps : List OtpCode) : List OtpCode × Bool :=
  let matching := otps.filter (fun o =>
    o.userId == userId && o.purpose == purpose && o.code == code && o.usedAt == none)
  match latestByCreatedAt matching with
  | none => (otps, false)
  | some otp =>
    if otp.expiresAt < now then (otps, false)
    else
      (otps.map (fun o => if o.id == otp.id then { o with usedAt := some now } else o), true)

/-- The credential store: users and their OTP codes. -/
structure AuthDb where
  users : List User
  otpCodes : List OtpCode
deriving DecidableEq

/-- `registerRequestOtp` from `authService.ts`: duplicate-email check, then
user creation, then OTP creation, then email dispatch (whose success is the
`emailOk` argument; a dispatch failure aborts after the rows were written). -/
def registerRequestOtp (email passwordHash : String) (newUserId newOtpId now : Nat)
    (code : String) (emailOk : Bool) (db : AuthDb) : AuthDb × Except String Unit :=
  match db.users.find? (fun u => u.email == email) with
  | some _ => (db, .error "User with this email already exists")
  | none =>
    let user : User :=
      { id := newUserId, email := email, passwordHash := passwordHash, isActive := false }
    let db1 : AuthDb := { db with users := db.users ++ [user] }
    let created := createOtpForUser db1.otpCodes newOtpId now user.id .REGISTER email code
    let db2 : AuthDb := { db1 with otpCodes := created.1 }
    if emailOk then (db2, .ok ())
    else (db2, .error "Email dispatch failed")

/-- `requestPasswordReset` from `authService.ts`: silent success for unknown
or inactive accounts, otherwise a `PASSWORD_RESET` OTP is issued and mailed. -/
def requestPasswordReset (email : String) (newOtpId now : Nat) (code : String)
    (emailOk : Bool) (db : AuthDb) : AuthDb × Except String Unit :=
  match db.users.find? (fun u => u.email == email) with
  | none => (db, .ok ())
  | some user =>
    if !user.isActive then (db, .ok ())
    else
      let created := createOtpForUser db.otpCodes newOtpId now user.id .PASSWORD_RESET email code
      let db1 : AuthDb := { db with otpCodes := created.1 }
      if emailOk then (db1, .ok ())
      else (db1, .error "Email dispatch failed")

/-- Whether the course with the given id exists and is active. -/
def courseIsActive (cat : Catalog) (courseId : Nat) : Bool :=
  match cat.courses.find? (fun c => c.id == courseId) with
  | some c => c.isActive
  | none => false

/-- Whether the lesson with the given id exists, is active, and belongs to an
active course. -/
def lessonAndCourseActive (cat : Catalog) (lessonId : Nat) : Bool :=
  match cat.lessons.find? (fun l => l.id == lessonId) with
  | some l => l.isActive && courseIsActive cat l.courseId
  | none => false

/-- `maxScore` of the assignment a `UserAssignment` row points to. -/
def assignmentMaxScore (cat : Catalog) (assignmentId : Nat) : Int :=
  match cat.assignments.find? (fun a => a.id == assignmentId) with
  | some a => a.maxScore
  | none => 0

/-- The result record of `getUserStats`. -/
structure UserStats where
  totalCourses : Nat
  startedCourses : Nat
  completedCourses : Nat
  averageProgress : Nat
  completedLessons : Nat
  totalLessons : Nat
  completedAssignments : Nat
  totalAssignments : Nat
  totalScore : Int
  maxScore : Int
  scorePercentage : Nat
deriving DecidableEq

/-- `getUserStats` from `profileService.ts`: read-only aggregation over the
store.  Scores are nonnegative by the submit-time validation, so the
score percentage's `Math.round` is modelled on naturals. -/
def getUserStats (cat : Catalog) (db : Db) (userId : Nat) : UserStats :=
  let totalCourses := (cat.courses.filter (fun c => c.isActive)).length
  let userCourses := db.userCourseProgress.filter (fun cp => cp.userId == userId)
  let startedCourses := userCourses.length
  let completedCourses := (userCourses.filter (fun cp => cp.progressPercent == 100)).length
  let averageProgress :=
    if userCourses.length > 0 then
      jsRound (userCourses.foldl (fun sum cp => sum + cp.progressPercent) 0) userCourses.length
    else 0
  let completedLessons := (db.userLessonProgress.filter
    (fun lp => lp.userId == userId && lp.progressPercent == 100)).length
  let totalLessons := (cat.lessons.filter
    (fun l => l.isActive && courseIsActive cat l.courseId)).length
  let completedAssignments := (db.userAssignment.filter
    (fun ua => ua.userId == userId && ua.completedAt != none)).length
  let totalAssignments := (cat.assignments.filter (fun a =>
    a.isActive && (match a.lessonId with
                   | some lid => lessonAndCourseActive cat lid
                   | none => false))).length
  let userAssignments := db.userAssignment.filter (fun ua => ua.userId == userId)
  let totalScore := userAssignments.foldl (fun sum ua => sum + ua.score) 0
  let maxScore := userAssignments.foldl
    (fun sum ua => sum + assignmentMaxScore cat ua.assignmentId) 0
  { totalCourses := totalCourses
    startedCourses := startedCourses
    completedCourses := completedCourses
    averageProgress := averageProgress
    completedLessons := completedLessons
    totalLessons := totalLessons
    completedAssignments := completedAssignments
    totalAssignments := totalAssignments
    totalScore := totalScore
    maxScore := maxScore
    scorePercentage :=
      if maxScore > 0 then jsRound (totalScore.toNat * 100) maxScore.toNat else 0 }

/-- An achievement entry as produced by `getUserAchievements`. -/
structure Achievement where
  id : String
  title : String
  description : String
  unlocked : Bool
deriving DecidableEq

/-- `getUserAchievements` from `profileService.ts`: evaluates the fixed rule
set against `getUserStats` and pushes the unlocked entries in order. -/
def getUserAchievements (cat : Catalog) (db : Db) (userId : Nat) : List Achievement :=
  let stats := getUserStats cat db userId
  (if stats.startedCourses ≥ 1 then
    [{ id := "first_course", title := "Первый шаг",
       description := "Начал прохождение первого курса", unlocked := true }] else []) ++
  (if stats.completedCourses ≥ 1 then
    [{ id := "first_completed", title := "Первый успех",
       description := "Завершил первый курс", unlocked := true }] else []) ++
  (if stats.completedCourses ≥ 5 then
    [{ id := "five_courses", title := "Опытный студент",
       description := "Завершил 5 курсов", unlocked := true }] else []) ++
  (if stats.completedCourses ≥ 10 then
    [{ id := "ten_courses", title := "Мастер обучения",
       description := "Завершил 10 курсов", unlocked := true }] else []) ++
  (if stats.completedAssignments > 0 ∧ stats.completedAssignments = stats.totalAssignments then
    [{ id := "all_assignments", title := "Выполнил все задания",
       description := "Завершил все доступные задания", unlocked := true }] else []) ++
  (if stats.averageProgress = 100 ∧ stats.startedCourses > 0 then
    [{ id := "perfect_progress", title := "Идеальный прогресс",
       description := "Достиг 100% прогресса по всем курсам", unlocked := true }] else [])

/-- No two rows share the (userId, lessonId) composite key (Prisma's
`@@unique`). -/
abbrev ULPKeysDistinct (rows : List UserLessonProgress) : Prop :=
  rows.Pairwise (fun a b => a.userId ≠ b.userId ∨ a.lessonId ≠ b.lessonId)

/-- The `averageProgress` computed inside `updateCourseProgress`. -/
def courseAverageProgress (cat : Catalog) (db : Db) (u cid : Nat) : Nat :=
  jsRound
    ((db.userLessonProgress.filter (fun r =>
        r.userId == u &&
        ((activeLessonsOf cat cid).map (fun l => l.id)).contains r.lessonId)).foldl
      (fun sum lp => sum + lp.progressPercent) 0)
    (activeLessonsOf cat cid).length

/-! ### Concrete fixtures used by witnesses and counterexamples -/

/-- A catalog with one active course, two active lessons and one assignment
owned by lesson 1. -/
def exCat : Catalog :=
  { courses := [{ id := 1, isActive := true }],
    lessons := [{ id := 1, courseId := 1, isActive := true },
                { id := 2, courseId := 1, isActive := true }],
    assignments := [{ id := 7, lessonId := some 1, maxScore := 10, isActive := true }] }

/-- An empty progress store. -/
def exDb : Db := { userLessonProgress := [], userCourseProgress := [], userAssignment := [] }

/-- An unused OTP record expiring at time 5. -/
def exOtpBoundary : OtpCode :=
  { id := 1, userId := 1, purpose := .REGISTER, code := "123456", expiresAt := 5,
    usedAt := none, sentTo := "a@x", createdAt := 0 }

/-- Two coexisting unused records carrying the same code value (the issuing
logic deduplicates nothing, so random generation can produce this). -/
def exOtpTwins : List OtpCode :=
  [{ id := 1, userId := 1, purpose := .REGISTER, code := "111111", expiresAt := 100,
     usedAt := none, sentTo := "a@x", createdAt := 1 },
   { id := 2, userId := 1, purpose := .REGISTER, code := "111111", expiresAt := 100,
     usedAt := none, sentTo := "a@x", createdAt := 2 }]

/-- A single unused OTP record. -/
def exOtpSingle : List OtpCode :=
  [{ id := 1, userId := 1, purpose := .REGISTER, code := "222222", expiresAt := 100,
     usedAt := none, sentTo := "a@x", createdAt := 1 }]

/-- An empty credential store. -/
def exAuthDb : AuthDb := { users := [], otpCodes := [] }


/-! ### Generic list lemmas -/

lemma find?_append_of_none {α : Type} (p : α → Bool) (l₁ l₂ : List α)
    (h : l₁.find? p = none) : (l₁ ++ l₂).find? p = l₂.find? p := by
  induction l₁ with
  | nil => rfl
  | cons a t ih =>
    rw [List.find?_eq_none] at h
    have ha : p a = false := by
      have := h a (List.mem_cons_self a t)
      simpa using this
    have ht : t.find? p = none := by
      rw [List.find?_eq_none]
      intro x hx
      exact h x (List.mem_cons_of_mem a hx)
    simpa [List.find?_cons, ha] using ih ht

lemma find?_map_ite {α : Type} (p : α → Bool) (f : α → α)
    (hpf : ∀ a, p a = true → p (f a) = true) (l : List α) :
    (l.map (fun a => if p a = true then f a else a)).find? p = (l.find? p).map f := by
  induction l with
  | nil => rfl
  | cons a t ih =>
    by_cases h : p a = true
    · simp [List.find?_cons, h, hpf a h]
    · have h' : p a = false := by simpa using h
      simp [List.find?_cons, h', ih]

lemma sum_filter_or {α : Type} (g : α → Nat) (p q : α → Bool)
    (hdisj : ∀ a, ¬(p a = true ∧ q a = true)) (l : List α) :
    ((l.filter (fun a => p a || q a)).map g).sum
    = ((l.filter p).map g).sum + ((l.filter q).map g).sum := by
  induction l with
  | nil => simp
  | cons a t ih =>
    by_cases hp : p a = true
    · have hq : q a = false := by
        rcases Bool.eq_false_or_eq_true (q a) with h | h
        · exact absurd ⟨hp, h⟩ (hdisj a)
        · exact h
      simp [List.filter_cons, hp, hq, ih, Nat.add_assoc]
    · have hp' : p a = false := by simpa using hp
      by_cases hq : q a = true
      · simp [List.filter_cons, hp', hq, ih]
        omega
      · have hq' : q a = false := by simpa using hq
        simp [List.filter_cons, hp', hq', ih]

/-! ### Upsert characterization -/

lemma find?_upsertLessonProgress (rows : List UserLessonProgress)
    (u lid pct : Nat) (comp : Bool) (now : Nat) :
    (upsertLessonProgress rows u lid pct comp now).find?
        (fun r => r.userId == u && r.lessonId == lid)
    = some { userId := u, lessonId := lid, progressPercent := pct,
             completedAt := if comp then some now else
               (match rows.find? (fun r => r.userId == u && r.lessonId == lid) with
                | some r => r.completedAt
                | none => none) } := by
  unfold upsertLessonProgress
  by_cases h : rows.any (fun r => r.userId == u && r.lessonId == lid) = true
  · rw [if_pos h]
    have hsome : (rows.find? (fun r => r.userId == u && r.lessonId == lid)).isSome := by
      rw [List.find?_isSome]
      obtain ⟨x, hx, hpx⟩ := List.any_eq_true.mp h
      exact ⟨x, hx, hpx⟩
    obtain ⟨r0, hr0⟩ := Option.isSome_iff_exists.mp hsome
    have hkey := List.find?_some hr0
    rw [Bool.and_eq_true] at hkey
    obtain ⟨h1, h2⟩ := hkey
    have e1 : r0.userId = u := by simpa using h1
    have e2 : r0.lessonId = lid := by simpa using h2
    rw [find?_map_ite (fun r : UserLessonProgress => r.userId == u && r.lessonId == lid)
      (fun r : UserLessonProgress =>
        { r with progressPercent := pct,
                 completedAt := if comp then some now else r.completedAt })
      (fun a ha => ha), hr0]
    cases r0 with
    | mk a b c d =>
      simp only at e1 e2
      subst e1; subst e2
      simp
  · rw [if_neg h]
    have hnone : rows.find? (fun r => r.userId == u && r.lessonId == lid) = none := by
      rw [List.find?_eq_none]
      intro x hx hpx
      exact h (List.any_eq_true.mpr ⟨x, hx, hpx⟩)
    rw [find?_append_of_none _ _ _ hnone, hnone]
    simp [List.find?_cons]

lemma find?_upsertCourseProgress (rows : List UserCourseProgress)
    (u cid pct : Nat) (comp : Bool) (now : Nat) :
    (upsertCourseProgress rows u cid pct comp now).find?
        (fun r => r.userId == u && r.courseId == cid)
    = some { userId := u, courseId := cid, progressPercent := pct,
             completedAt := if comp then some now else
               (match rows.find? (fun r => r.userId == u && r.courseId == cid) with
                | some r => r.completedAt
                | none => none) } := by
  unfold upsertCourseProgress
  by_cases h : rows.any (fun r => r.userId == u && r.courseId == cid) = true
  · rw [if_pos h]
    have hsome : (rows.find? (fun r => r.userId == u && r.courseId == cid)).isSome := by
      rw [List.find?_isSome]
      obtain ⟨x, hx, hpx⟩ := List.any_eq_true.mp h
      exact ⟨x, hx, hpx⟩
    obtain ⟨r0, hr0⟩ := Option.isSome_iff_exists.mp hsome
    have hkey := List.find?_some hr0
    rw [Bool.and_eq_true] at hkey
    obtain ⟨h1, h2⟩ := hkey
    have e1 : r0.userId = u := by simpa using h1
    have e2 : r0.courseId = cid := by simpa using h2
    rw [find?_map_ite (fun r : UserCourseProgress => r.userId == u && r.courseId == cid)
      (fun r : UserCourseProgress =>
        { r with progressPercent := pct,
                 completedAt := if comp then some now else r.completedAt })
      (fun a ha => ha), hr0]
    cases r0 with
    | mk a b c d =>
      simp only at e1 e2
      subst e1; subst e2
      simp
  · rw [if_neg h]
    have hnone : rows.find? (fun r => r.userId == u && r.courseId == cid) = none := by
      rw [List.find?_eq_none]
      intro x hx hpx
      exact h (List.any_eq_true.mpr ⟨x, hx, hpx⟩)
    rw [find?_append_of_none _ _ _ hnone, hnone]
    simp [List.find?_cons]

lemma find?_upsertUserAssignment (rows : List UserAssignment)
    (u aid : Nat) (score : Int) (answers now : Nat) :
    (upsertUserAssignment rows u aid score answers now).find?
        (fun r => r.userId == u && r.assignmentId == aid)
    = some { userId := u, assignmentId := aid, score := score,
             answers := answers, completedAt := some now } := by
  unfold upsertUserAssignment
  by_cases h : rows.any (fun r => r.userId == u && r.assignmentId == aid) = true
  · rw [if_pos h]
    have hsome : (rows.find? (fun r => r.userId == u && r.assignmentId == aid)).isSome := by
      rw [List.find?_isSome]
      obtain ⟨x, hx, hpx⟩ := List.any_eq_true.mp h
      exact ⟨x, hx, hpx⟩
    obtain ⟨r0, hr0⟩ := Option.isSome_iff_exists.mp hsome
    have hkey := List.find?_some hr0
    rw [Bool.and_eq_true] at hkey
    obtain ⟨h1, h2⟩ := hkey
    have e1 : r0.userId = u := by simpa using h1
    have e2 : r0.assignmentId = aid := by simpa using h2
    rw [find?_map_ite (fun r : UserAssignment => r.userId == u && r.assignmentId == aid)
      (fun r : UserAssignment =>
        { r with score := score, answers := answers, completedAt := some now })
      (fun a ha => ha), hr0]
    cases r0 with
    | mk a b c d e =>
      simp only at e1 e2
      subst e1; subst e2
      simp
  · rw [if_neg h]
    have hnone : rows.find? (fun r => r.userId == u && r.assignmentId == aid) = none := by
      rw [List.find?_eq_none]
      intro x hx hpx
      exact h (List.any_eq_true.mpr ⟨x, hx, hpx⟩)
    rw [find?_append_of_none _ _ _ hnone]
    simp [List.find?_cons]

/-! ### Key uniqueness is preserved by the lesson-progress upsert -/


lemma upsertLessonProgress_keysDistinct (rows : List UserLessonProgress)
    (u lid pct : Nat) (comp : Bool) (now : Nat) (h : ULPKeysDistinct rows) :
    ULPKeysDistinct (upsertLessonProgress rows u lid pct comp now) := by
  unfold upsertLessonProgress ULPKeysDistinct
  by_cases hany : rows.any (fun r => r.userId == u && r.lessonId == lid) = true
  · rw [if_pos hany, List.pairwise_map]
    refine h.imp ?_
    intro a b hab
    by_cases ha : (a.userId == u && a.lessonId == lid) = true <;>
      by_cases hb : (b.userId == u && b.lessonId == lid) = true <;>
      simp [ha, hb] <;> exact hab
  · rw [if_neg hany, List.pairwise_append]
    refine ⟨h, List.pairwise_singleton _ _, ?_⟩
    intro a ha b hb
    rw [List.mem_singleton] at hb
    subst hb
    have hka : ¬(a.userId == u && a.lessonId == lid) = true := by
      intro hk
      exact hany (List.any_eq_true.mpr ⟨a, ha, hk⟩)
    rw [Bool.and_eq_true] at hka
    push_neg at hka
    by_cases h1 : (a.userId == u) = true
    · right
      have := hka h1
      simpa using this
    · left
      simpa using h1

/-! ### State components untouched by the operations -/

lemma updateCourseProgress_ulp (cat : Catalog) (now u cid : Nat) (db : Db) :
    ((updateCourseProgress cat now u cid db).1).userLessonProgress
    = db.userLessonProgress := by
  unfold updateCourseProgress
  split
  · rfl
  · dsimp only
    split
    · rfl
    · rfl

lemma updateCourseProgress_ua (cat : Catalog) (now u cid : Nat) (db : Db) :
    ((updateCourseProgress cat now u cid db).1).userAssignment = db.userAssignment := by
  unfold updateCourseProgress
  split
  · rfl
  · dsimp only
    split
    · rfl
    · rfl

lemma updateLessonProgress_ulp (cat : Catalog) (now u lid : Nat) (p : Int) (db : Db)
    (lesson : Lesson)
    (h0 : ¬(p < 0 ∨ p > 100))
    (hf : cat.lessons.find? (fun l => l.id == lid) = some lesson) :
    ((updateLessonProgress cat now u lid p db).1).userLessonProgress
    = upsertLessonProgress db.userLessonProgress u lid p.toNat (p == 100) now := by
  unfold updateLessonProgress
  rw [if_neg h0, hf]
  exact updateCourseProgress_ulp ..

lemma updateLessonProgress_ua (cat : Catalog) (now u lid : Nat) (p : Int) (db : Db) :
    ((updateLessonProgress cat now u lid p db).1).userAssignment = db.userAssignment := by
  unfold updateLessonProgress
  split
  · rfl
  · split
    · rfl
    · exact updateCourseProgress_ua ..

/-! ### The filtered sum over progress rows equals the per-lesson sum -/

lemma sum_filter_key (rows : List UserLessonProgress) (u lid : Nat)
    (hnd : ULPKeysDistinct rows) :
    ((rows.filter (fun r => r.userId == u && r.lessonId == lid)).map
       (fun r => r.progressPercent)).sum
    = lessonPercentOrZero rows u lid := by
  induction rows with
  | nil => simp [lessonPercentOrZero]
  | cons a t ih =>
    obtain ⟨ha, ht⟩ := List.pairwise_cons.mp hnd
    by_cases h : (a.userId == u && a.lessonId == lid) = true
    · have hae := (Bool.and_eq_true _ _) ▸ h
      have e1 : a.userId = u := by simpa using hae.1
      have e2 : a.lessonId = lid := by simpa using hae.2
      have htail : t.filter (fun r => r.userId == u && r.lessonId == lid) = [] := by
        rw [List.filter_eq_nil_iff]
        intro b hb hkb
        have hbe := (Bool.and_eq_true _ _) ▸ hkb
        have f1 : b.userId = u := by simpa using hbe.1
        have f2 : b.lessonId = lid := by simpa using hbe.2
        rcases ha b hb with hne | hne
        · exact hne (e1.trans f1.symm)
        · exact hne (e2.trans f2.symm)
      simp [List.filter_cons, h, htail, lessonPercentOrZero, List.find?_cons]
    · have h' : (a.userId == u && a.lessonId == lid) = false := by simpa using h
      simp only [List.filter_cons, h', if_neg, Bool.false_eq_true, not_false_eq_true,
        lessonPercentOrZero, List.find?_cons]
      rw [show (lessonPercentOrZero t u lid
          = match t.find? (fun r => r.userId == u && r.lessonId == lid) with
            | some r => r.progressPercent
            | none => 0) from rfl] at ih
      exact ih ht

lemma sum_filter_contains (rows : List UserLessonProgress) (u : Nat) (ids : List Nat)
    (hids : ids.Nodup) (hnd : ULPKeysDistinct rows) :
    ((rows.filter (fun r => r.userId == u && ids.contains r.lessonId)).map
       (fun r => r.progressPercent)).sum
    = (ids.map (fun lid => lessonPercentOrZero rows u lid)).sum := by
  induction ids with
  | nil => simp
  | cons i it ih =>
    obtain ⟨hi, hit⟩ := List.nodup_cons.mp hids
    have hcongr : rows.filter (fun r => r.userId == u && (i :: it).contains r.lessonId)
        = rows.filter (fun r =>
            (r.userId == u && r.lessonId == i) || (r.userId == u && it.contains r.lessonId)) := by
      apply List.filter_congr
      intro x _
      rw [List.contains_cons, Bool.and_or_distrib_left]
    rw [hcongr, sum_filter_or _ _ _ ?disj, sum_filter_key rows u i hnd, ih hit]
    · simp
    case disj =>
      intro a hcontra
      obtain ⟨hp, hq⟩ := hcontra
      have h1 := ((Bool.and_eq_true _ _) ▸ hp).2
      have h2 := ((Bool.and_eq_true _ _) ▸ hq).2
      have e1 : a.lessonId = i := by simpa using h1
      rw [e1] at h2
      exact hi (by simpa [List.elem_iff] using h2)

lemma foldl_add_pct (rows : List UserLessonProgress) (init : Nat) :
    rows.foldl (fun sum r => sum + r.progressPercent) init
    = init + (rows.map (fun r => r.progressPercent)).sum := by
  induction rows generalizing init with
  | nil => simp
  | cons a t ih => simp [List.foldl_cons, ih, Nat.add_assoc]

lemma activeLessonsOf_nodup_ids (cat : Catalog) (cid : Nat)
    (h : (cat.lessons.map (fun l => l.id)).Nodup) :
    ((activeLessonsOf cat cid).map (fun l => l.id)).Nodup := by
  unfold activeLessonsOf
  exact List.Nodup.sublist (List.Sublist.map _ (List.filter_sublist _)) h

/-! ### Facts about the OTP selection -/

lemma foldl_latestStep_mem (l : List OtpCode) :
    ∀ (acc : Option OtpCode) (r : OtpCode),
      l.foldl latestStep acc = some r → acc = some r ∨ r ∈ l := by
  induction l with
  | nil =>
    intro acc r h
    exact Or.inl h
  | cons o t ih =>
    intro acc r h
    rw [List.foldl_cons] at h
    rcases ih (latestStep acc o) r h with hstep | hmem
    · cases acc with
      | none =>
        refine Or.inr ?_
        rw [← Option.some.inj hstep]
        exact List.mem_cons_self o t
      | some b =>
        have hstep2 : (if o.createdAt > b.createdAt then some o else some b) = some r := hstep
        by_cases hgt : o.createdAt > b.createdAt
        · rw [if_pos hgt] at hstep2
          refine Or.inr ?_
          rw [← Option.some.inj hstep2]
          exact List.mem_cons_self o t
        · rw [if_neg hgt] at hstep2
          exact Or.inl hstep2
    · exact Or.inr (List.mem_cons_of_mem o hmem)

lemma latestByCreatedAt_mem (l : List OtpCode) (r : OtpCode)
    (h : latestByCreatedAt l = some r) : r ∈ l := by
  rcases foldl_latestStep_mem l none r h with hacc | hmem
  · cases hacc
  · exact hmem

lemma foldl_latestStep_const (r : OtpCode) :
    ∀ t : List OtpCode, (∀ x ∈ t, x = r) → t.foldl latestStep (some r) = some r := by
  intro t
  induction t with
  | nil =>
    intro _
    rfl
  | cons o tt ih =>
    intro hall
    rw [List.foldl_cons]
    have ho : o = r := hall o (List.mem_cons_self o tt)
    rw [ho]
    have hstep : latestStep (some r) r = some r := by
      show (if r.createdAt > r.createdAt then some r else some r) = some r
      split <;> rfl
    rw [hstep]
    exact ih (fun x hx => hall x (List.mem_cons_of_mem o hx))

lemma latestByCreatedAt_of_all_eq (l : List OtpCode) (r : OtpCode)
    (hne : l ≠ []) (hall : ∀ x ∈ l, x = r) : latestByCreatedAt l = some r := by
  cases l with
  | nil => exact absurd rfl hne
  | cons o t =>
    unfold latestByCreatedAt
    rw [List.foldl_cons]
    have ho : o = r := hall o (List.mem_cons_self o t)
    rw [show latestStep none o = some o from rfl, ho]
    exact foldl_latestStep_const r t (fun x hx => hall x (List.mem_cons_of_mem o hx))

lemma verifyOtp_eq (now u : Nat) (p : OtpPurpose) (c : String) (otps : List OtpCode) :
    verifyOtp now u p c otps =
      match latestByCreatedAt (otps.filter (fun o =>
          o.userId == u && o.purpose == p && o.code == c && o.usedAt == none)) with
      | none => (otps, false)
      | some otp =>
        if otp.expiresAt < now then (otps, false)
        else (otps.map (fun o => if o.id == otp.id then { o with usedAt := some now } else o),
              true) := rfl

/-! ### Success of the progress update under a consistent catalog -/

lemma updateCourseProgress_ok (cat : Catalog) (now u cid : Nat) (db : Db)
    (hc : (cat.courses.find? (fun c0 => c0.id == cid)).isSome) :
    (updateCourseProgress cat now u cid db).2 = Except.ok () := by
  obtain ⟨course, hcourse⟩ := Option.isSome_iff_exists.mp hc
  unfold updateCourseProgress
  rw [hcourse]
  dsimp only
  split <;> rfl

lemma updateLessonProgress_ok (cat : Catalog) (now u lid : Nat) (p : Int) (db : Db)
    (lesson : Lesson) (h0 : ¬(p < 0 ∨ p > 100))
    (hf : cat.lessons.find? (fun l => l.id == lid) = some lesson)
    (hc : (cat.courses.find? (fun c0 => c0.id == lesson.courseId)).isSome) :
    (updateLessonProgress cat now u lid p db).2 = Except.ok () := by
  unfold updateLessonProgress
  rw [if_neg h0, hf]
  exact updateCourseProgress_ok cat now u lesson.courseId _ hc

/-! ### Claims -/

/-- C6: for every percent outside `[0, 100]`, `updateLessonProgress` fails
with the validation error and performs no write: the returned store is the
input store, so every stored `UserLessonProgress` and `UserCourseProgress`
row is unchanged. -/
theorem claim_C6_invalid_percent_no_write (cat : Catalog) (db : Db)
    (now u lid : Nat) (p : Int) (h : p < 0 ∨ p > 100) :
    updateLessonProgress cat now u lid p db
    = (db, Except.error "Progress percent must be between 0 and 100") := by
  unfold updateLessonProgress
  rw [if_pos h]

theorem claim_C6_witness :
    ((101 : Int) < 0 ∨ (101 : Int) > 100) ∧
    updateLessonProgress exCat 5 1 1 101 exDb
      = (exDb, Except.error "Progress percent must be between 0 and 100") :=
  ⟨by decide, claim_C6_invalid_percent_no_write exCat exDb 5 1 1 101 (by decide)⟩

/-- C2 counterexample: setting lesson 1 to 100 at time 5 and then regressing
it to 50 leaves `completedAt = some 5` while the stored percent is 50, so
after the second call `completedAt` is set although `p = 50 ≠ 100` — the
claim's "completedAt is set iff p == 100 after the call" is false on the
regression case (the update branch passes `undefined` for `completedAt`). -/
theorem claim_C2_counterexample :
    findLessonProgress
        (updateLessonProgress exCat 9 1 1 50 (updateLessonProgress exCat 5 1 1 100 exDb).1).1 1 1
      = some { userId := 1, lessonId := 1, progressPercent := 50, completedAt := some 5 } := by
  decide

/-- C2 (amended): for every valid percent `p ∈ [0,100]` and existing lesson,
`updateLessonProgress` stores exactly `p`; `completedAt` is set to `now` when
`p = 100`, and otherwise keeps its previous value (absent rows start unset) —
in particular it is NOT cleared when `p` regresses below 100. -/
theorem claim_C2_update_stores_percent (cat : Catalog) (db : Db)
    (now u lid : Nat) (p : Int) (h0 : 0 ≤ p) (h1 : p ≤ 100) (lesson : Lesson)
    (hfind : cat.lessons.find? (fun l => l.id == lid) = some lesson) :
    findLessonProgress (updateLessonProgress cat now u lid p db).1 u lid
    = some { userId := u, lessonId := lid, progressPercent := p.toNat,
             completedAt := if p = 100 then some now
               else (match findLessonProgress db u lid with
                     | some r => r.completedAt
                     | none => none) } := by
  have hrange : ¬(p < 0 ∨ p > 100) := by omega
  unfold findLessonProgress
  rw [updateLessonProgress_ulp cat now u lid p db lesson hrange hfind,
      find?_upsertLessonProgress]
  by_cases hp : p = 100
  · simp [hp]
  · have hb : (p == 100) = false := by simp [hp]
    simp only [hb, Bool.false_eq_true, if_neg, if_false]
    rw [if_neg hp]

theorem claim_C2_witness :
    findLessonProgress (updateLessonProgress exCat 7 1 1 50 exDb).1 1 1
      = some { userId := 1, lessonId := 1, progressPercent := 50, completedAt := none } :=
  (claim_C2_update_stores_percent exCat exDb 7 1 1 50 (by decide) (by decide)
    { id := 1, courseId := 1, isActive := true } (by decide)).trans (by decide)

/-- C7: `requestPasswordReset` returns success and writes nothing when the
email is unknown or the account is inactive; for an existing active user it
appends exactly one `PASSWORD_RESET` OTP record (and modifies no user row). -/
theorem claim_C7_reset_anti_enumeration (db : AuthDb) (email : String)
    (oid now : Nat) (code : String) (emailOk : Bool) :
    (db.users.find? (fun u => u.email == email) = none →
      requestPasswordReset email oid now code emailOk db = (db, Except.ok ())) ∧
    (∀ user, db.users.find? (fun u => u.email == email) = some user →
      user.isActive = false →
      requestPasswordReset email oid now code emailOk db = (db, Except.ok ())) ∧
    (∀ user, db.users.find? (fun u => u.email == email) = some user →
      user.isActive = true →
      (requestPasswordReset email oid now code emailOk db).1.users = db.users ∧
      (requestPasswordReset email oid now code emailOk db).1.otpCodes
        = db.otpCodes
          ++ [{ id := oid, userId := user.id,
                purpose := OtpPurpose.PASSWORD_RESET, code := code,
                expiresAt := now + OTP_EXP_MINUTES, usedAt := none,
                sentTo := email, createdAt := now }]) := by
  refine ⟨?_, ?_, ?_⟩
  · intro hnone
    unfold requestPasswordReset
    rw [hnone]
  · intro user hu hinact
    unfold requestPasswordReset
    rw [hu]
    simp [hinact]
  · intro user hu hact
    unfold requestPasswordReset
    rw [hu]
    cases emailOk <;> simp [hact, createOtpForUser]

theorem claim_C7_witness :
    requestPasswordReset "a@x" 1 0 "c" true exAuthDb = (exAuthDb, Except.ok ()) :=
  (claim_C7_reset_anti_enumeration exAuthDb "a@x" 1 0 "c" true).1 (by decide)

/-- C9: when the duplicate-email check passes but email dispatch fails,
`registerRequestOtp` errors AFTER the inactive user row and its `REGISTER`
OTP row were persisted, and from then on any `registerRequestOtp` for the
same email fails with the duplicate-email error: registration is not atomic
with respect to user creation. -/
theorem claim_C9_register_not_atomic (db : AuthDb) (email pw : String)
    (uid oid now : Nat) (code : String)
    (hnone : db.users.find? (fun u => u.email == email) = none) :
    (registerRequestOtp email pw uid oid now code false db).2
      = Except.error "Email dispatch failed" ∧
    (registerRequestOtp email pw uid oid now code false db).1.users
      = db.users ++ [{ id := uid, email := email, passwordHash := pw, isActive := false }] ∧
    (registerRequestOtp email pw uid oid now code false db).1.otpCodes
      = db.otpCodes
        ++ [{ id := oid, userId := uid, purpose := OtpPurpose.REGISTER,
              code := code, expiresAt := now + OTP_EXP_MINUTES, usedAt := none,
              sentTo := email, createdAt := now }] ∧
    (∀ (pw2 : String) (uid2 oid2 now2 : Nat) (code2 : String) (emailOk2 : Bool),
      registerRequestOtp email pw2 uid2 oid2 now2 code2 emailOk2
          (registerRequestOtp email pw uid oid now code false db).1
        = ((registerRequestOtp email pw uid oid now code false db).1,
           Except.error "User with this email already exists")) := by
  have hres : registerRequestOtp email pw uid oid now code false db
      = ({ users :=
             db.users ++ [{ id := uid, email := email, passwordHash := pw,
                            isActive := false }],
           otpCodes :=
             db.otpCodes ++ [{ id := oid, userId := uid,
                               purpose := OtpPurpose.REGISTER, code := code,
                               expiresAt := now + OTP_EXP_MINUTES, usedAt := none,
                               sentTo := email, createdAt := now }] },
         Except.error "Email dispatch failed") := by
    unfold registerRequestOtp
    rw [hnone]
    rfl
  refine ⟨by rw [hres], by rw [hres], by rw [hres], ?_⟩
  intro pw2 uid2 oid2 now2 code2 emailOk2
  rw [hres]
  unfold registerRequestOtp
  dsimp only
  rw [find?_append_of_none _ _ _ hnone]
  simp [List.find?_cons]

theorem claim_C9_witness :
    registerRequestOtp "a@x" "h2" 3 4 5 "c2" true
        (registerRequestOtp "a@x" "h" 1 2 0 "c" false exAuthDb).1
      = ((registerRequestOtp "a@x" "h" 1 2 0 "c" false exAuthDb).1,
         Except.error "User with this email already exists") :=
  (claim_C9_register_not_atomic exAuthDb "a@x" "h" 1 2 0 "c" (by decide)).2.2.2
    "h2" 3 4 5 "c2" true

/-- C4 counterexample: an unused code whose `expiresAt` equals the current
time verifies successfully — the source checks `isBefore(expiresAt, now)`,
which is false at the boundary `now = expiresAt`, so the claim's "current
time < expiresAt" validity condition (and its boundary-failure consequence)
is wrong. -/
theorem claim_C4_counterexample :
    (verifyOtp 5 1 OtpPurpose.REGISTER "123456" [exOtpBoundary]).2 = true := by
  decide

/-- C4 (amended): for a store in which the record `r` is the only one
matching (user, purpose, code), verification succeeds iff `r` matches,
`usedAt` is unset and `now ≤ expiresAt`: the code fails only once
`now > expiresAt`, and the boundary `now = expiresAt` still succeeds. -/
theorem claim_C4_valid_iff (now u : Nat) (p : OtpPurpose) (c : String)
    (otps : List OtpCode) (r : OtpCode) (hr : r ∈ otps)
    (honly : ∀ s ∈ otps, s.userId = u ∧ s.purpose = p ∧ s.code = c → s = r) :
    ((verifyOtp now u p c otps).2 = true ↔
      (r.userId = u ∧ r.purpose = p ∧ r.code = c ∧ r.usedAt = none ∧
       now ≤ r.expiresAt)) := by
  rw [verifyOtp_eq]
  by_cases hmatch : r.userId = u ∧ r.purpose = p ∧ r.code = c
  · obtain ⟨m1, m2, m3⟩ := hmatch
    by_cases hused : r.usedAt = none
    · have hallr : ∀ x ∈ otps.filter (fun o =>
          o.userId == u && o.purpose == p && o.code == c && o.usedAt == none),
          x = r := by
        intro x hx
        obtain ⟨hxmem, hxp⟩ := List.mem_filter.mp hx
        simp only [Bool.and_eq_true, beq_iff_eq] at hxp
        exact honly x hxmem ⟨hxp.1.1.1, hxp.1.1.2, hxp.1.2⟩
      have hrmem : r ∈ otps.filter (fun o =>
          o.userId == u && o.purpose == p && o.code == c && o.usedAt == none) :=
        List.mem_filter.mpr ⟨hr, by simp [m1, m2, m3, hused]⟩
      have hne : otps.filter (fun o =>
          o.userId == u && o.purpose == p && o.code == c && o.usedAt == none) ≠ [] := by
        intro h0
        rw [h0] at hrmem
        exact List.not_mem_nil r hrmem
      rw [latestByCreatedAt_of_all_eq _ r hne hallr]
      dsimp only
      by_cases hexp : r.expiresAt < now
      · rw [if_pos hexp]
        constructor
        · intro hfalse
          exact absurd hfalse (by simp)
        · intro hrhs
          exact absurd hrhs.2.2.2.2 (by omega)
      · rw [if_neg hexp]
        constructor
        · intro _
          exact ⟨m1, m2, m3, hused, by omega⟩
        · intro _
          rfl
    · have hempty : otps.filter (fun o =>
          o.userId == u && o.purpose == p && o.code == c && o.usedAt == none) = [] := by
        rw [List.filter_eq_nil_iff]
        intro x hxmem hxp
        simp only [Bool.and_eq_true, beq_iff_eq] at hxp
        have hxr : x = r := honly x hxmem ⟨hxp.1.1.1, hxp.1.1.2, hxp.1.2⟩
        rw [hxr] at hxp
        exact hused hxp.2
      rw [hempty]
      constructor
      · intro hfalse
        exact absurd hfalse (by simp [latestByCreatedAt])
      · intro hrhs
        exact absurd hrhs.2.2.2.1 hused
  · have hempty : otps.filter (fun o =>
        o.userId == u && o.purpose == p && o.code == c && o.usedAt == none) = [] := by
      rw [List.filter_eq_nil_iff]
      intro x hxmem hxp
      simp only [Bool.and_eq_true, beq_iff_eq] at hxp
      have hxr : x = r := honly x hxmem ⟨hxp.1.1.1, hxp.1.1.2, hxp.1.2⟩
      rw [hxr] at hxp
      exact hmatch ⟨hxp.1.1.1, hxp.1.1.2, hxp.1.2⟩
    rw [hempty]
    constructor
    · intro hfalse
      exact absurd hfalse (by simp [latestByCreatedAt])
    · intro hrhs
      exact absurd ⟨hrhs.1, hrhs.2.1, hrhs.2.2.1⟩ hmatch

theorem claim_C4_witness :
    (verifyOtp 3 1 OtpPurpose.REGISTER "123456" [exOtpBoundary]).2 = true :=
  (claim_C4_valid_iff 3 1 OtpPurpose.REGISTER "123456" [exOtpBoundary] exOtpBoundary
    (by decide) (by decide)).mpr (by decide)

/-- C3 counterexample: with two coexisting unused records carrying the same
(user, purpose, code) — which issuance permits, since codes are random and
prior codes are never invalidated — a verify succeeds twice: the first call
marks only the latest record used and the second call succeeds on the twin.
This refutes the claim's unconditional "at most once" for a (user, purpose,
code) triple. -/
theorem claim_C3_counterexample :
    (verifyOtp 10 1 OtpPurpose.REGISTER "111111" exOtpTwins).2 = true ∧
    (verifyOtp 11 1 OtpPurpose.REGISTER "111111"
        (verifyOtp 10 1 OtpPurpose.REGISTER "111111" exOtpTwins).1).2 = true := by
  decide

/-- C3 (amended): provided no two stored records share the same
(user, purpose, code) triple, verification succeeds at most once: a failing
verify changes no record, a successful verify marks exactly the selected
unused record used (all other records are untouched by the id-keyed update),
and after a success every later verify with the same triple fails. -/
theorem claim_C3_verify_at_most_once (now u : Nat) (p : OtpPurpose) (c : String)
    (otps : List OtpCode)
    (huniq : otps.Pairwise (fun a b =>
      ¬((a.userId = u ∧ a.purpose = p ∧ a.code = c) ∧
        (b.userId = u ∧ b.purpose = p ∧ b.code = c)))) :
    ((verifyOtp now u p c otps).2 = false → (verifyOtp now u p c otps).1 = otps) ∧
    ((verifyOtp now u p c otps).2 = true →
      ∃ r ∈ otps, r.userId = u ∧ r.purpose = p ∧ r.code = c ∧ r.usedAt = none ∧
        (verifyOtp now u p c otps).1
          = otps.map (fun o => if o.id == r.id then { o with usedAt := some now } else o)) ∧
    (∀ now2 : Nat, (verifyOtp now u p c otps).2 = true →
      (verifyOtp now2 u p c (verifyOtp now u p c otps).1).2 = false) := by
  rcases hL : latestByCreatedAt (otps.filter (fun o =>
      o.userId == u && o.purpose == p && o.code == c && o.usedAt == none)) with _ | otp
  · have hv : verifyOtp now u p c otps = (otps, false) := by
      rw [verifyOtp_eq, hL]
    refine ⟨fun _ => by rw [hv], fun hsucc => ?_, fun now2 hsucc => ?_⟩
    · rw [hv] at hsucc
      exact absurd hsucc (by simp)
    · rw [hv] at hsucc
      exact absurd hsucc (by simp)
  · by_cases hexp : otp.expiresAt < now
    · have hv : verifyOtp now u p c otps = (otps, false) := by
        rw [verifyOtp_eq, hL]
        dsimp only
        rw [if_pos hexp]
      refine ⟨fun _ => by rw [hv], fun hsucc => ?_, fun now2 hsucc => ?_⟩
      · rw [hv] at hsucc
        exact absurd hsucc (by simp)
      · rw [hv] at hsucc
        exact absurd hsucc (by simp)
    · have hv : verifyOtp now u p c otps
          = (otps.map (fun o => if o.id == otp.id then { o with usedAt := some now } else o),
             true) := by
        rw [verifyOtp_eq, hL]
        dsimp only
        rw [if_neg hexp]
      have hmem := latestByCreatedAt_mem _ _ hL
      obtain ⟨hmemo, hkey⟩ := List.mem_filter.mp hmem
      simp only [Bool.and_eq_true, beq_iff_eq] at hkey
      refine ⟨?_, ?_, ?_⟩
      · intro hfalse
        rw [hv] at hfalse
        exact absurd hfalse (by simp)
      · intro _
        exact ⟨otp, hmemo, hkey.1.1.1, hkey.1.1.2, hkey.1.2, hkey.2, by rw [hv]⟩
      · intro now2 _
        rw [hv]
        rw [verifyOtp_eq]
        have hempty : ((otps.map (fun o =>
            if o.id == otp.id then { o with usedAt := some now } else o)).filter
              (fun o => o.userId == u && o.purpose == p && o.code == c && o.usedAt == none))
            = [] := by
          rw [List.filter_eq_nil_iff]
          intro x hx
          obtain ⟨o, ho, hxo⟩ := List.mem_map.mp hx
          by_cases hid : (o.id == otp.id) = true
          · rw [if_pos hid] at hxo
            rw [← hxo]
            simp
          · rw [if_neg hid] at hxo
            rw [← hxo]
            intro hko
            simp only [Bool.and_eq_true, beq_iff_eq] at hko
            have hne : o ≠ otp := by
              intro he
              rw [he] at hid
              exact hid (by simp)
            have hsym : Symmetric (fun a b : OtpCode =>
                ¬((a.userId = u ∧ a.purpose = p ∧ a.code = c) ∧
                  (b.userId = u ∧ b.purpose = p ∧ b.code = c))) := by
              intro a b hab hcon
              exact hab ⟨hcon.2, hcon.1⟩
            exact (huniq.forall hsym ho hmemo hne)
              ⟨⟨hko.1.1.1, hko.1.1.2, hko.1.2⟩, hkey.1.1.1, hkey.1.1.2, hkey.1.2⟩
        rw [hempty]
        rfl

theorem claim_C3_witness :
    (verifyOtp 11 1 OtpPurpose.REGISTER "222222"
        (verifyOtp 10 1 OtpPurpose.REGISTER "222222" exOtpSingle).1).2 = false :=
  (claim_C3_verify_at_most_once 10 1 OtpPurpose.REGISTER "222222" exOtpSingle
    (by simp [exOtpSingle])).2.2 11 (by decide)

/-- C5: for an existing assignment, `submitAssignment` rejects a score below
0 or above the assignment's `maxScore` with the validation error and no
write; with a score in range it persists the `UserAssignment` row (score,
answers, `completedAt = now`) and forces the owning lesson's progress row to
100 with `completedAt = now`, regardless of any prior progress. -/
theorem claim_C5_submit_validates_and_completes (cat : Catalog) (db : Db)
    (now u aid answers : Nat) (assignment : Assignment)
    (hfind : cat.assignments.find? (fun a => a.id == aid) = some assignment) :
    (∀ score : Int, score < 0 ∨ score > assignment.maxScore →
      submitAssignment cat now u aid answers score db
        = (db, Except.error
            ("Score must be between 0 and " ++ toString assignment.maxScore))) ∧
    (∀ (score : Int) (lid : Nat) (lesson : Lesson),
      0 ≤ score → score ≤ assignment.maxScore →
      assignment.lessonId = some lid →
      cat.lessons.find? (fun l => l.id == lid) = some lesson →
      findUserAssignment (submitAssignment cat now u aid answers score db).1 u aid
        = some { userId := u, assignmentId := aid, score := score, answers := answers,
                 completedAt := some now } ∧
      findLessonProgress (submitAssignment cat now u aid answers score db).1 u lid
        = some { userId := u, lessonId := lid, progressPercent := 100,
                 completedAt := some now }) := by
  constructor
  · intro score hrange
    unfold submitAssignment
    rw [hfind]
    dsimp only
    rw [if_pos hrange]
  · intro score lid lesson h0 h1 hlid hlesson
    have hrange : ¬(score < 0 ∨ score > assignment.maxScore) := by omega
    have hsub : submitAssignment cat now u aid answers score db
        = updateLessonProgress cat now u lid 100
            { db with userAssignment :=
                        upsertUserAssignment db.userAssignment u aid score answers now } := by
      unfold submitAssignment
      simp only [hfind]
      rw [if_neg hrange]
      rw [hlid]
    rw [hsub]
    constructor
    · unfold findUserAssignment
      rw [updateLessonProgress_ua]
      exact find?_upsertUserAssignment ..
    · unfold findLessonProgress
      rw [updateLessonProgress_ulp cat now u lid 100 _ lesson (by omega) hlesson,
          find?_upsertLessonProgress]
      simp

theorem claim_C5_witness :
    findUserAssignment (submitAssignment exCat 5 1 7 33 9 exDb).1 1 7
      = some { userId := 1, assignmentId := 7, score := 9, answers := 33,
               completedAt := some 5 } ∧
    findLessonProgress (submitAssignment exCat 5 1 7 33 9 exDb).1 1 1
      = some { userId := 1, lessonId := 1, progressPercent := 100,
               completedAt := some 5 } :=
  (claim_C5_submit_validates_and_completes exCat exDb 5 1 7 33
      { id := 7, lessonId := some 1, maxScore := 10, isActive := true } (by decide)).2
    9 1 { id := 1, courseId := 1, isActive := true }
    (by decide) (by decide) (by decide) (by decide)

/-- C10: a repeated in-range submission by the same user for the same
assignment always succeeds and unconditionally overwrites the stored
`UserAssignment` row with the latest answers and score — even a lower one —
and resets `completedAt` to the latest submission time. -/
theorem claim_C10_resubmission_overwrites (cat : Catalog) (db : Db)
    (now1 now2 u aid answers1 answers2 : Nat) (score1 score2 : Int)
    (assignment : Assignment) (lid : Nat) (lesson : Lesson)
    (hfind : cat.assignments.find? (fun a => a.id == aid) = some assignment)
    (h1 : 0 ≤ score2) (h2 : score2 ≤ assignment.maxScore)
    (hlid : assignment.lessonId = some lid)
    (hlesson : cat.lessons.find? (fun l => l.id == lid) = some lesson)
    (hcourse : (cat.courses.find? (fun c0 => c0.id == lesson.courseId)).isSome) :
    (submitAssignment cat now2 u aid answers2 score2
        (submitAssignment cat now1 u aid answers1 score1 db).1).2 = Except.ok () ∧
    findUserAssignment
        (submitAssignment cat now2 u aid answers2 score2
          (submitAssignment cat now1 u aid answers1 score1 db).1).1 u aid
      = some { userId := u, assignmentId := aid, score := score2, answers := answers2,
               completedAt := some now2 } := by
  have key : ∀ dbx : Db,
      (submitAssignment cat now2 u aid answers2 score2 dbx).2 = Except.ok () ∧
      findUserAssignment (submitAssignment cat now2 u aid answers2 score2 dbx).1 u aid
        = some { userId := u, assignmentId := aid, score := score2, answers := answers2,
                 completedAt := some now2 } := by
    intro dbx
    have hrange : ¬(score2 < 0 ∨ score2 > assignment.maxScore) := by omega
    have hsub : submitAssignment cat now2 u aid answers2 score2 dbx
        = updateLessonProgress cat now2 u lid 100
            { dbx with userAssignment :=
                         upsertUserAssignment dbx.userAssignment u aid score2 answers2 now2 } := by
      unfold submitAssignment
      simp only [hfind]
      rw [if_neg hrange]
      rw [hlid]
    rw [hsub]
    constructor
    · exact updateLessonProgress_ok cat now2 u lid 100 _ lesson (by omega) hlesson hcourse
    · unfold findUserAssignment
      rw [updateLessonProgress_ua]
      exact find?_upsertUserAssignment ..
  exact key _

theorem claim_C10_witness :
    (submitAssignment exCat 6 1 7 44 3
        (submitAssignment exCat 5 1 7 33 9 exDb).1).2 = Except.ok () ∧
    findUserAssignment
        (submitAssignment exCat 6 1 7 44 3
          (submitAssignment exCat 5 1 7 33 9 exDb).1).1 1 7
      = some { userId := 1, assignmentId := 7, score := 3, answers := 44,
               completedAt := some 6 } :=
  claim_C10_resubmission_overwrites exCat exDb 5 6 1 7 33 44 9 3
    { id := 7, lessonId := some 1, maxScore := 10, isActive := true }
    1 { id := 1, courseId := 1, isActive := true }
    (by decide) (by decide) (by decide) (by decide) (by decide) (by decide)

lemma mem_id_ite (c : Prop) [Decidable c] (a : Achievement) (s : String) :
    (s ∈ (if c then [a] else []).map (fun x => x.id)) ↔ (c ∧ s = a.id) := by
  by_cases h : c <;> simp [h]

/-- C8: "first_course" is unlocked iff the user has started at least one
course, and "perfect_progress" iff the rounded average progress over the
started courses (0 when none are started) is exactly 100 and at least one
course is started — with `startedCourses` the count of the user's
`UserCourseProgress` rows and `averageProgress` as computed by
`getUserStats`. -/
theorem claim_C8_achievements_iff (cat : Catalog) (db : Db) (u : Nat) :
    (("first_course" ∈ (getUserAchievements cat db u).map (fun a => a.id)) ↔
      1 ≤ (getUserStats cat db u).startedCourses) ∧
    (("perfect_progress" ∈ (getUserAchievements cat db u).map (fun a => a.id)) ↔
      ((getUserStats cat db u).averageProgress = 100 ∧
       0 < (getUserStats cat db u).startedCourses)) := by
  unfold getUserAchievements
  constructor
  · simp only [List.map_append, List.mem_append, mem_id_ite]
    constructor
    · intro h
      rcases h with ((((⟨h1, _⟩ | ⟨_, h2⟩) | ⟨_, h2⟩) | ⟨_, h2⟩) | ⟨_, h2⟩) | ⟨_, h2⟩
      · exact h1
      all_goals simp at h2
    · intro h
      exact Or.inl (Or.inl (Or.inl (Or.inl (Or.inl ⟨h, trivial⟩))))
  · simp only [List.map_append, List.mem_append, mem_id_ite]
    constructor
    · intro h
      rcases h with ((((⟨_, h2⟩ | ⟨_, h2⟩) | ⟨_, h2⟩) | ⟨_, h2⟩) | ⟨_, h2⟩) | ⟨h1, _⟩
      · simp at h2
      · simp at h2
      · simp at h2
      · simp at h2
      · simp at h2
      · exact h1
    · intro h
      exact Or.inr ⟨h, trivial⟩


lemma updateCourseProgress_eq_of_active (cat : Catalog) (now u cid : Nat) (db : Db)
    (course : Course)
    (hc : cat.courses.find? (fun c => c.id == cid) = some course)
    (hactive : activeLessonsOf cat cid ≠ []) :
    updateCourseProgress cat now u cid db
      = ({ db with userCourseProgress :=
             (upsertCourseProgress db.userCourseProgress u cid
               (courseAverageProgress cat db u cid)
               (courseAverageProgress cat db u cid == 100) now) },
         Except.ok ()) := by
  unfold updateCourseProgress
  rw [hc]
  dsimp only
  rw [if_neg (fun h => hactive (List.eq_nil_of_length_eq_zero (by simpa using h)))]
  rfl

/-- C1: after a successful `updateLessonProgress` on a lesson whose course
has at least one active lesson, the stored `UserCourseProgress.progressPercent`
equals `round(sum / n)` where the sum ranges over the user's per-lesson
percentages across ALL of the course's active lessons (an absent progress row
contributing 0) and `n` is the count of all active lessons — in particular,
with k of n active lessons at 100 and the rest untouched, it is
`round(100 k / n)`. -/
theorem claim_C1_course_progress_formula (cat : Catalog) (db : Db)
    (now u lid : Nat) (p : Int) (lesson : Lesson)
    (hlesson : cat.lessons.find? (fun l => l.id == lid) = some lesson)
    (hids : (cat.lessons.map (fun l => l.id)).Nodup)
    (hnd : ULPKeysDistinct db.userLessonProgress)
    (hactive : activeLessonsOf cat lesson.courseId ≠ [])
    (hok : (updateLessonProgress cat now u lid p db).2 = Except.ok ()) :
    ∃ row,
      findCourseProgress (updateLessonProgress cat now u lid p db).1 u lesson.courseId
        = some row ∧
      row.progressPercent = jsRound
        (((activeLessonsOf cat lesson.courseId).map (fun l =>
            lessonPercentOrZero
              ((updateLessonProgress cat now u lid p db).1).userLessonProgress
              u l.id)).sum)
        (activeLessonsOf cat lesson.courseId).length := by
  by_cases hrange : p < 0 ∨ p > 100
  · exfalso
    unfold updateLessonProgress at hok
    rw [if_pos hrange] at hok
    simp at hok
  · have hcall : updateLessonProgress cat now u lid p db
        = updateCourseProgress cat now u lesson.courseId
            { db with userLessonProgress :=
                        (upsertLessonProgress db.userLessonProgress u lid
                          p.toNat (p == 100) now) } := by
      unfold updateLessonProgress
      rw [if_neg hrange, hlesson]
    rcases hc : cat.courses.find? (fun c => c.id == lesson.courseId) with _ | course
    · exfalso
      rw [hcall] at hok
      unfold updateCourseProgress at hok
      rw [hc] at hok
      simp at hok
    · rw [hcall,
        updateCourseProgress_eq_of_active cat now u lesson.courseId _ course hc hactive]
      unfold findCourseProgress
      dsimp only
      rw [find?_upsertCourseProgress]
      refine ⟨_, rfl, ?_⟩
      show courseAverageProgress cat
          { db with userLessonProgress :=
                      (upsertLessonProgress db.userLessonProgress u lid
                        p.toNat (p == 100) now) }
          u lesson.courseId = _
      unfold courseAverageProgress
      rw [foldl_add_pct, Nat.zero_add]
      have hnd1 : ULPKeysDistinct
          (upsertLessonProgress db.userLessonProgress u lid p.toNat (p == 100) now) :=
        upsertLessonProgress_keysDistinct _ _ _ _ _ _ hnd
      rw [show ({ db with userLessonProgress :=
            (upsertLessonProgress db.userLessonProgress u lid
              p.toNat (p == 100) now) } : Db).userLessonProgress
          = upsertLessonProgress db.userLessonProgress u lid p.toNat (p == 100) now
        from rfl]
      rw [sum_filter_contains _ u ((activeLessonsOf cat lesson.courseId).map (fun l => l.id))
        (activeLessonsOf_nodup_ids cat lesson.courseId hids) hnd1]
      rw [List.map_map]
      rfl

theorem claim_C1_witness :
    ∃ row,
      findCourseProgress (updateLessonProgress exCat 5 1 1 100 exDb).1 1 1 = some row ∧
      row.progressPercent = jsRound
        (((activeLessonsOf exCat 1).map (fun l =>
            lessonPercentOrZero
              ((updateLessonProgress exCat 5 1 1 100 exDb).1).userLessonProgress
              1 l.id)).sum)
        (activeLessonsOf exCat 1).length :=
  claim_C1_course_progress_formula exCat exDb 5 1 1 100
    { id := 1, courseId := 1, isActive := true }
    (by decide) (by decide) (by decide) (by decide) (by decide)

end Backend
